import Mathlib

/-!
Verification development for the pqos monitoring module (src/monitor.c).

The definitions below are a shallow embedding of the monitoring module:
the target registry (core groups and pid groups), the event-mask parser,
the scale-factor resolver, the row formatters for the three output
encodings, the qsort comparators, the sleep pacing logic and the
polling loop.  C machine integers are modelled as Nat or Int with
explicit two-complement truncation where overflow matters; fallible
code returns Except.
-/

namespace Monitor

/-! ### Event masks

Modelled from the spec: the pqos.h event constants are not part of
src/; the spec describes the event mask as a bitwise-combinable set
drawn from cache-occupancy, local-bandwidth, remote-bandwidth with a
distinguished all-events sentinel.  The C sentinel is the int value -1,
that is all bits set in a 32-bit enum, so the sentinel is modelled as
the all-ones 32-bit word and the three events as distinct low bits. -/

def PQOS_MON_EVENT_L3_OCCUP : Nat := 1

def PQOS_MON_EVENT_LMEM_BW : Nat := 2

def PQOS_MON_EVENT_RMEM_BW : Nat := 4

/-- The all-events sentinel, C value -1 as an unsigned 32-bit word. -/
def PQOS_MON_EVENT_ALL : Nat := 4294967295

/-- Bit test on an event mask: the C expression mask AND event != 0. -/
def hasEvt (mask evt : Nat) : Bool := mask &&& evt != 0

/-- The recognized event specification heads of a monitoring clause:
llc, mbr, mbl, all, the empty head (meaning all), or anything else,
which parse_event rejects fatally. -/
inductive EvtKind where
  | kLlc | kMbr | kMbl | kAll | kEmptyHead | kBad
deriving DecidableEq

/-- Embeds parse_event (monitor.c:342-365).  Given the clause head and
the current process-wide display mask sel_events_max, it returns the
event value for the clause together with the updated display mask.
Only the three explicitly named events are ORed into the display mask;
the all and empty heads yield the sentinel without touching the mask;
an unrecognized head is a fatal parse error. -/
def parse_event (k : EvtKind) (sel_events_max : Nat) : Except Unit (Nat × Nat) :=
  match k with
  | .kLlc => .ok (PQOS_MON_EVENT_L3_OCCUP, sel_events_max ||| PQOS_MON_EVENT_L3_OCCUP)
  | .kMbr => .ok (PQOS_MON_EVENT_RMEM_BW, sel_events_max ||| PQOS_MON_EVENT_RMEM_BW)
  | .kMbl => .ok (PQOS_MON_EVENT_LMEM_BW, sel_events_max ||| PQOS_MON_EVENT_LMEM_BW)
  | .kAll => .ok (PQOS_MON_EVENT_ALL, sel_events_max)
  | .kEmptyHead => .ok (PQOS_MON_EVENT_ALL, sel_events_max)
  | .kBad => .error ()

/-! ### Core-group registry -/

/-- One entry of sel_monitor_core_tab (monitor.c:83-89): description,
the member cores, and the accumulated event mask.  The backend handle
pointer carries no data and is omitted. -/
structure core_group where
  desc : String
  cores : List Nat
  events : Nat
deriving DecidableEq

/-- The found counter of cmp_cgrps (monitor.c:318-324): the number of
index pairs of the two core tables holding the same core. -/
def cgrp_found (a b : List Nat) : Nat := (a.map fun x => b.count x).sum

/-- Embeds cmp_cgrps (monitor.c:304-333): the result is 0 when no
cores match, 1 when both sizes equal the match count, and -1
otherwise. -/
def cmp_cgrps (cg_a cg_b : core_group) : Int :=
  if cgrp_found cg_a.cores cg_b.cores = 0 then 0
  else if cg_a.cores.length = cg_b.cores.length ∧
      cg_b.cores.length = cgrp_found cg_a.cores cg_b.cores then 1
  else -1

/-- The inner scan of parse_monitor_event (monitor.c:395-408): the
candidate group is compared against the registered groups in order
while the comparator returns 0.  A -1 comparison is a fatal error; a
1 comparison ORs the clause event into the matched entry and stops the
scan; falling off the end reports that no entry matched. -/
def cgrp_scan (cand : core_group) (evt : Nat) :
    List core_group → Except Unit (Option (List core_group))
  | [] => .ok none
  | g :: rest =>
    if cmp_cgrps g cand < 0 then .error ()
    else if cmp_cgrps g cand = 0 then
      match cgrp_scan cand evt rest with
      | .error e => .error e
      | .ok none => .ok none
      | .ok (some rest') => .ok (some (g :: rest'))
    else .ok (some ({ g with events := g.events ||| evt } :: rest))

/-- One registration step of parse_monitor_event (monitor.c:395-422)
for a single candidate group: merge into the matching entry if one
exists, fail fatally on a partial overlap, otherwise append a new
entry carrying the clause event mask. -/
def cgrp_register (evt : Nat) (tab : List core_group) (cand : core_group) :
    Except Unit (List core_group) :=
  match cgrp_scan cand evt tab with
  | .error e => .error e
  | .ok none => .ok (tab ++ [{ cand with events := evt }])
  | .ok (some tab') => .ok tab'

/-- The mutable selection state of the module: the display mask
sel_events_max and the core-group table sel_monitor_core_tab. -/
structure CoreState where
  sel_events_max : Nat
  tab : List core_group
deriving DecidableEq

/-- Embeds parse_monitor_event (monitor.c:373-424) for one clause.
The clause head is parsed first (updating the display mask), then each
candidate group produced by the tokenizer is registered in order.
Tokenization itself (strtocgrps / strlisttotab, the latter outside
src/) is upstream of this function; candidates arrive as parsed
core lists. -/
def parse_monitor_event (k : EvtKind) (cands : List core_group) (st : CoreState) :
    Except Unit CoreState :=
  match parse_event k st.sel_events_max with
  | .error e => .error e
  | .ok (evt, sm) =>
    match cands.foldlM (cgrp_register evt) st.tab with
    | .error e => .error e
    | .ok tab' => .ok ⟨sm, tab'⟩

/-- Embeds selfn_monitor_cores (monitor.c:436-463): the display mask
is reset to zero, then every semicolon-separated clause is processed
by parse_monitor_event. -/
def selfn_monitor_cores (clauses : List (EvtKind × List core_group)) (st : CoreState) :
    Except Unit CoreState :=
  clauses.foldlM (fun s c => parse_monitor_event c.1 c.2 s) ⟨0, st.tab⟩

/-! ### Pid registry -/

def PQOS_MAX_PIDS : Nat := 128

/-- One entry of sel_monitor_pid_tab (monitor.c:97-101). -/
structure pid_entry where
  pid : Nat
  events : Nat
deriving DecidableEq

/-- The scan of sel_store_process_id (monitor.c:696-706): find the
first registered entry with the same pid and OR the clause event into
it; none if no entry matches. -/
def pid_upd (evt p : Nat) : List pid_entry → Option (List pid_entry)
  | [] => none
  | e :: rest =>
    if e.pid = p then some ({ e with events := e.events ||| evt } :: rest)
    else (pid_upd evt p rest).map (e :: ·)

/-- One pid registration (monitor.c:696-721): merge into the matching
entry or append a new one carrying the clause event. -/
def pid_add (evt : Nat) (tab : List pid_entry) (p : Nat) : List pid_entry :=
  match pid_upd evt p tab with
  | none => tab ++ [⟨p, evt⟩]
  | some tab' => tab'

/-- The pid selection state: display mask and pid table. -/
structure PidState where
  sel_events_max : Nat
  tab : List pid_entry
deriving DecidableEq

/-- Embeds sel_store_process_id (monitor.c:671-722) for one clause:
parse the head, reject an empty pid list and a list of PQOS_MAX_PIDS
or more pids (both via parse_error, fatal), then register each pid.
The bound is checked against the clause list alone, not against the
accumulated table size. -/
def sel_store_process_id (k : EvtKind) (processes : List Nat) (st : PidState) :
    Except Unit PidState :=
  match parse_event k st.sel_events_max with
  | .error e => .error e
  | .ok (evt, sm) =>
    if processes.length = 0 then .error ()
    else if PQOS_MAX_PIDS ≤ processes.length then .error ()
    else .ok ⟨sm, processes.foldl (pid_add evt) st.tab⟩

/-- Embeds selfn_monitor_pids (monitor.c:730-758): the display mask is
reset to zero, then every clause is processed by
sel_store_process_id. -/
def selfn_monitor_pids (clauses : List (EvtKind × List Nat)) (st : PidState) :
    Except Unit PidState :=
  clauses.foldlM (fun s c => sel_store_process_id c.1 c.2 s) ⟨0, st.tab⟩

/-! ### Scale factor resolver -/

/-- The per-event part of the backend capability descriptor: its
native scale factor (pqos.h struct pqos_monitor, outside src/; only
the scale_factor field is consumed here). -/
structure pqos_monitor where
  scale_factor : Nat
deriving DecidableEq

/-- The backend capability descriptor restricted to what
get_event_factors consumes: pqos_cap_get_event may fail per event, so
each event maps to an optional descriptor. -/
structure CapModel where
  l3 : Option pqos_monitor
  mbr : Option pqos_monitor
  mbl : Option pqos_monitor
deriving DecidableEq

/-- One block of get_event_factors (monitor.c:852-885): if the event
is displayed, a missing capability descriptor is an error, otherwise
the factor is the native scale over the divisor; an event not
displayed gets the neutral factor 1. -/
def event_factor (selected : Bool) (mon : Option pqos_monitor) (divisor : ℚ) :
    Except Unit ℚ :=
  if selected then
    match mon with
    | none => .error ()
    | some m => .ok ((m.scale_factor : ℚ) / divisor)
  else .ok 1

/-- The resolved factors (llc_factor, mbr_factor, mbl_factor). -/
structure EventFactors where
  llc_factor : ℚ
  mbr_factor : ℚ
  mbl_factor : ℚ
deriving DecidableEq

/-- Embeds get_event_factors (monitor.c:838-888): LLC occupancy is
scaled by native scale over 1024, the two bandwidth events by native
scale over 1024 * 1024; the three blocks run in the source order llc,
mbr, mbl and the first missing descriptor of a displayed event aborts
the whole resolution. -/
def get_event_factors (cap : CapModel) (sel_events_max : Nat) :
    Except Unit EventFactors :=
  match event_factor (hasEvt sel_events_max PQOS_MON_EVENT_L3_OCCUP) cap.l3 1024 with
  | .error e => .error e
  | .ok llcf =>
    match event_factor (hasEvt sel_events_max PQOS_MON_EVENT_RMEM_BW) cap.mbr (1024 * 1024) with
    | .error e => .error e
    | .ok mbrf =>
      match event_factor (hasEvt sel_events_max PQOS_MON_EVENT_LMEM_BW) cap.mbl (1024 * 1024) with
      | .error e => .error e
      | .ok mblf => .ok ⟨llcf, mbrf, mblf⟩

/-! ### qsort comparators -/

/-- The snapshot fields the two qsort comparators read from
struct pqos_mon_data: the llc occupancy value (a uint64) and the core
table (cores[0] is the sort key in core mode). -/
structure mon_snapshot where
  llc : Nat
  cores : List Nat
deriving DecidableEq

/-- Conversion of a uint64 value to int64, two-complement. -/
def toInt64 (n : Nat) : Int :=
  if n % 2 ^ 64 < 2 ^ 63 then (n % 2 ^ 64 : Int) else (n % 2 ^ 64 : Int) - 2 ^ 64

/-- Truncation of an Int to the C int type, two-complement 32-bit. -/
def toInt32 (x : Int) : Int := (x + 2 ^ 31) % 2 ^ 32 - 2 ^ 31

/-- Embeds mon_qsort_llc_cmp_desc (monitor.c:771-785): the difference
of the two llc values, computed in int64 and truncated by the cast to
the int return type. -/
def mon_qsort_llc_cmp_desc (a b : mon_snapshot) : Int :=
  toInt32 (toInt64 b.llc - toInt64 a.llc)

/-- Embeds mon_qsort_coreid_cmp_asc (monitor.c:798-812): the unsigned
difference of the first core ids, truncated by the cast to int. -/
def mon_qsort_coreid_cmp_asc (a b : mon_snapshot) : Int :=
  toInt32 (((a.cores.headD 0 : Int) - (b.cores.headD 0 : Int)) % 2 ^ 32)

/-- Modelled from the spec: the libc qsort call (monitor.c:1432-1438)
is outside src/; it is modelled as a comparison sort that keeps an
element before another whenever the comparator does not order them
strictly the other way, here an insertion sort. -/
def qsort_insert (cmp : mon_snapshot → mon_snapshot → Int) (x : mon_snapshot) :
    List mon_snapshot → List mon_snapshot
  | [] => [x]
  | y :: ys => if cmp x y ≤ 0 then x :: y :: ys else y :: qsort_insert cmp x ys

/-- Modelled from the spec: comparison sort standing for qsort. -/
def qsort_model (cmp : mon_snapshot → mon_snapshot → Int) (l : List mon_snapshot) :
    List mon_snapshot :=
  l.foldr (qsort_insert cmp) []

/-! ### Interval sleep -/

/-- One nanosleep interruption: how much of the request had elapsed at
the wake, and the value of the stop flag at the check that follows. -/
structure SleepWake where
  elapsed : Nat
  stopFlag : Bool
deriving DecidableEq

/-- Outcome of the sleep phase: total time slept, whether the loop
break was taken, and the durations requested from nanosleep. -/
structure SleepOutcome where
  slept : Nat
  broke : Bool
  requests : List Nat
deriving DecidableEq

/-- Embeds the tail of a loop tick (monitor.c:1494-1511) once the
remainder need = interval - elapsed is known.  The first nanosleep may
complete (w1 = none) or be interrupted; an interruption with the stop
flag set breaks out at once; otherwise the residual is requested from
a second nanosleep whose own interruption is not handled further. -/
def sleep_phase (need : Nat) (w1 w2 : Option SleepWake) : SleepOutcome :=
  match w1 with
  | none => ⟨need, false, [need]⟩
  | some i =>
    if i.stopFlag then ⟨i.elapsed, true, [need]⟩
    else
      match w2 with
      | none => ⟨i.elapsed + (need - i.elapsed), false, [need, need - i.elapsed]⟩
      | some j => ⟨i.elapsed + j.elapsed, false, [need, need - i.elapsed]⟩

/-- The guard around the sleep phase (monitor.c:1494): the sleep runs
only when the tick took less than the configured interval. -/
def tick_sleep (interval usec_diff : Nat) (w1 w2 : Option SleepWake) : SleepOutcome :=
  if usec_diff < interval then sleep_phase (interval - usec_diff) w1 w2
  else ⟨0, false, []⟩

/-! ### Output setup and the polling loop -/

/-- The validated output encodings. -/
inductive OType where
  | text | xml | csv
deriving DecidableEq

/-- Observable events of a monitoring run. -/
inductive Ev where
  | xmlDecl
  | rootOpen
  | rootClose
  | poll (n : Nat)
  | pollFail
  | render (n : Nat)
  | trailingBlank
deriving DecidableEq, BEq

/-- Embeds the destination-stream setup of monitor_setup
(monitor.c:499-523).  The named file is represented by its length in
bytes before the fopen.  Text mode appends; xml and csv open with
w+, which truncates the file; in xml mode the position after a seek
to the end is compared with zero to decide whether the declaration
and the opening root element are written.  Nothing is written for
stdout. -/
def monitor_setup_out (t : OType) (file : Option Nat) : List Ev :=
  match file with
  | none => []
  | some len =>
    let len_after := match t with
      | .xml => 0
      | .csv => 0
      | .text => len
    if t = .xml then
      if len_after = 0 then [.xmlDecl, .rootOpen] else []
    else []

/-- The pre-loop terminal query (monitor.c:1316-1326): only when the
stream is a tty and the ioctl succeeds is max_lines set, floored at
TERM_MIN_NUM_LINES = 3; otherwise it stays 0 and no clamping ever
happens. -/
def init_max_lines (istty : Bool) (ioctlRows : Option Nat) : Nat :=
  if istty then
    match ioctlRows with
    | some r => if r < 3 then 3 else r
    | none => 0
  else 0

/-- The per-tick clamp (monitor.c:1440-1443): when max_lines is set
and the group count plus the TERM_MIN_NUM_LINES - 1 = 2 margin lines
exceed it, the shared group counter becomes max_lines - 2. -/
def clamp_groups (max_lines n : Nat) : Nat :=
  if 0 < max_lines ∧ max_lines < n + 2 then max_lines - 2 else n

/-- Per-tick environment: the asynchronous stop flag as observed at
the loop top and after the render, the poll outcome, the tick duration
in microseconds, the nanosleep wakes, the wall-clock timeout test
outcome, and the row count a terminal re-query would return at this
tick (the source never performs such a re-query). -/
structure TickEnv where
  stopAtTop : Bool
  pollOk : Bool
  stopAfterRender : Bool
  usec_diff : Nat
  w1 : Option SleepWake
  w2 : Option SleepWake
  timeoutHit : Bool
  rows : Nat
deriving DecidableEq

/-- Static configuration of monitor_loop. -/
structure LoopCfg where
  otype : OType
  istty : Bool
  ioctlRows : Option Nat
  interval : Nat
  selTimeInf : Bool
  sel_events_max : Nat
  cap : CapModel
  mon_number : Nat
deriving DecidableEq

/-- The writes performed after the while loop exits normally
(monitor.c:1519-1523): the closing root element in xml mode and the
trailing blank lines on a tty. -/
def loop_closing (cfg : LoopCfg) : List Ev :=
  (if cfg.otype = .xml then [.rootClose] else []) ++
  (if cfg.istty then [.trailingBlank] else [])

/-- The while loop of monitor_loop (monitor.c:1392-1518), one TickEnv
per iteration the environment drives.  Each tick polls the first
mon_number handles, aborts the whole function on a poll failure
(skipping the closing writes), clamps the shared group counter,
renders that many rows, then runs the stop checks, the sleep phase and
the timeout check.  An exhausted environment list means the loop is
still running, so nothing further is recorded. -/
def monitor_ticks (cfg : LoopCfg) (max_lines : Nat) :
    Nat → List TickEnv → List Ev
  | _, [] => []
  | mon_number, e :: rest =>
    if e.stopAtTop then loop_closing cfg
    else if !e.pollOk then [.poll mon_number, .pollFail]
    else
      let n' := clamp_groups max_lines mon_number
      .poll mon_number :: .render n' ::
        (if e.stopAfterRender then loop_closing cfg
         else if (tick_sleep cfg.interval e.usec_diff e.w1 e.w2).broke then loop_closing cfg
         else if !cfg.selTimeInf && e.timeoutHit then loop_closing cfg
         else monitor_ticks cfg max_lines n' rest)

/-- Embeds monitor_loop (monitor.c:1257-1527): the scale factors are
resolved first and a failure returns before any tick; then the
terminal is queried once and the tick loop runs. -/
def monitor_loop (cfg : LoopCfg) (envs : List TickEnv) : List Ev :=
  match get_event_factors cfg.cap cfg.sel_events_max with
  | .error _ => []
  | .ok _ =>
    monitor_ticks cfg (init_max_lines cfg.istty cfg.ioctlRows) cfg.mon_number envs

/-- A full run for output accounting: the setup writes followed by the
loop writes. -/
def monitor_run (cfg : LoopCfg) (file : Option Nat) (envs : List TickEnv) : List Ev :=
  monitor_setup_out cfg.otype file ++ monitor_loop cfg envs

/-! ### Row formatters -/

/-- Left padding with spaces to the given minimum width, as the
printf width specifiers produce. -/
def strPadLeft (n : Nat) (s : String) : String :=
  String.mk (List.replicate (n - s.length) ' ') ++ s

/-- Truncation to the first n characters, as a printf precision on a
string argument produces. -/
def strTake (n : Nat) (s : String) : String :=
  String.mk (s.data.take n)

/-- Modelled from the spec: the printf rendering of a double with one
fractional digit is outside src/ (libc); the value is modelled as a
rational and rendered as its whole tenths. -/
def fmt_f1 (v : ℚ) : String :=
  let t : Int := Int.floor (v * 10)
  toString (t / 10) ++ "." ++ toString (t % 10).natAbs

/-- The %11.1f rendering: the tenths rendering padded to 11 columns. -/
def fmt_11_1f (v : ℚ) : String := strPadLeft 11 (fmt_f1 v)

/-- The fixed-width blank filler of fillin_text_column
(monitor.c:905), 11 spaces. -/
def blank_column : String := "           "

/-- Embeds fillin_text_column (monitor.c:901-926): a monitored value
is rendered with %11.1f, an unmonitored but present column becomes the
fixed-width blank, an absent column adds nothing.  The buffer-capacity
bookkeeping (sz_data) is elided; every caller passes a 128-byte
buffer, ample for the three columns. -/
def fillin_text_column (val : ℚ) (is_monitored is_column_present : Bool) : String :=
  if is_monitored then fmt_11_1f val
  else if is_column_present then blank_column
  else ""

/-- Embeds fillin_text_row (monitor.c:938-961): the three columns in
the fixed order llc, mbl, mbr, each present when the display mask
sel_events_max holds the event and populated when the group mask
does. -/
def fillin_text_row (mon_event sel_events_max : Nat) (llc mbr mbl : ℚ) : String :=
  fillin_text_column llc (hasEvt mon_event PQOS_MON_EVENT_L3_OCCUP)
      (hasEvt sel_events_max PQOS_MON_EVENT_L3_OCCUP) ++
    fillin_text_column mbl (hasEvt mon_event PQOS_MON_EVENT_LMEM_BW)
      (hasEvt sel_events_max PQOS_MON_EVENT_LMEM_BW) ++
    fillin_text_column mbr (hasEvt mon_event PQOS_MON_EVENT_RMEM_BW)
      (hasEvt sel_events_max PQOS_MON_EVENT_RMEM_BW)

/-- Embeds fillin_xml_column (monitor.c:975-999): a named element with
the value, an empty named element for a present but unmonitored
column, nothing for an absent column. -/
def fillin_xml_column (val : ℚ) (is_monitored is_column_present : Bool)
    (node_name : String) : String :=
  if is_monitored then
    "\t<" ++ node_name ++ ">" ++ fmt_f1 val ++ "</" ++ node_name ++ ">\n"
  else if is_column_present then
    "\t<" ++ node_name ++ "></" ++ node_name ++ ">\n"
  else ""

/-- Embeds fillin_xml_row (monitor.c:1011-1037). -/
def fillin_xml_row (mon_event sel_events_max : Nat) (llc mbr mbl : ℚ) : String :=
  fillin_xml_column llc (hasEvt mon_event PQOS_MON_EVENT_L3_OCCUP)
      (hasEvt sel_events_max PQOS_MON_EVENT_L3_OCCUP) "l3_occupancy_kB" ++
    fillin_xml_column mbl (hasEvt mon_event PQOS_MON_EVENT_LMEM_BW)
      (hasEvt sel_events_max PQOS_MON_EVENT_LMEM_BW) "mbm_local_MB" ++
    fillin_xml_column mbr (hasEvt mon_event PQOS_MON_EVENT_RMEM_BW)
      (hasEvt sel_events_max PQOS_MON_EVENT_RMEM_BW) "mbm_remote_MB"

/-- Embeds fillin_csv_column (monitor.c:1049-1070): a comma-led value,
a lone comma for a present but unmonitored column, nothing for an
absent column. -/
def fillin_csv_column (val : ℚ) (is_monitored is_column_present : Bool) : String :=
  if is_monitored then "," ++ fmt_f1 val
  else if is_column_present then ","
  else ""

/-- Embeds fillin_csv_row (monitor.c:1082-1105). -/
def fillin_csv_row (mon_event sel_events_max : Nat) (llc mbr mbl : ℚ) : String :=
  fillin_csv_column llc (hasEvt mon_event PQOS_MON_EVENT_L3_OCCUP)
      (hasEvt sel_events_max PQOS_MON_EVENT_L3_OCCUP) ++
    fillin_csv_column mbl (hasEvt mon_event PQOS_MON_EVENT_LMEM_BW)
      (hasEvt sel_events_max PQOS_MON_EVENT_LMEM_BW) ++
    fillin_csv_column mbr (hasEvt mon_event PQOS_MON_EVENT_RMEM_BW)
      (hasEvt sel_events_max PQOS_MON_EVENT_RMEM_BW)

/-- The identity fields of a text row (monitor.c:1134-1142): socket,
core-group description and RMID in core mode, pid and two N/A fields
in pid mode. -/
def text_identity (pidMode : Bool) (socket : Nat) (desc : String) (rmid pid : Nat) :
    String :=
  if !pidMode then
    "\n" ++ strPadLeft 3 (toString socket) ++ " " ++ strPadLeft 8 (strTake 8 desc) ++
      " " ++ strPadLeft 8 (toString rmid)
  else
    "\n" ++ strPadLeft 6 (toString pid) ++ " " ++ strPadLeft 6 "N/A" ++ " " ++
      strPadLeft 8 "N/A"

/-- Embeds print_text_row (monitor.c:1118-1143). -/
def print_text_row (pidMode : Bool) (socket : Nat) (desc : String) (rmid pid : Nat)
    (mon_event sel_events_max : Nat) (llc mbr mbl : ℚ) : String :=
  text_identity pidMode socket desc rmid pid ++
    fillin_text_row mon_event sel_events_max llc mbr mbl

/-- The identity fields of an xml record (monitor.c:1174-1206): the
record opening, timestamp, then socket/core/rmid in core mode or
pid/N-A/N-A in pid mode. -/
def xml_identity (pidMode : Bool) (time : String) (socket : Nat) (desc : String)
    (rmid pid : Nat) : String :=
  if !pidMode then
    "<record>\n\t<time>" ++ time ++ "</time>\n\t<socket>" ++ toString socket ++
      "</socket>\n\t<core>" ++ desc ++ "</core>\n\t<rmid>" ++ toString rmid ++
      "</rmid>\n"
  else
    "<record>\n\t<time>" ++ time ++ "</time>\n\t<pid>" ++ toString pid ++
      "</pid>\n\t<core>N/A</core>\n\t<rmid>N/A</rmid>\n"

/-- Embeds print_xml_row (monitor.c:1157-1207). -/
def print_xml_row (pidMode : Bool) (time : String) (socket : Nat) (desc : String)
    (rmid pid : Nat) (mon_event sel_events_max : Nat) (llc mbr mbl : ℚ) : String :=
  xml_identity pidMode time socket desc rmid pid ++
    fillin_xml_row mon_event sel_events_max llc mbr mbl ++ "</record>\n"

/-- The identity fields of a csv row (monitor.c:1238-1254): timestamp
then socket/core/rmid in core mode or pid/N-A/N-A in pid mode. -/
def csv_identity (pidMode : Bool) (time : String) (socket : Nat) (desc : String)
    (rmid pid : Nat) : String :=
  if !pidMode then
    time ++ "," ++ toString socket ++ "," ++ desc ++ "," ++ toString rmid
  else
    time ++ "," ++ toString pid ++ ",N/A,N/A"

/-- Embeds print_csv_row (monitor.c:1221-1255). -/
def print_csv_row (pidMode : Bool) (time : String) (socket : Nat) (desc : String)
    (rmid pid : Nat) (mon_event sel_events_max : Nat) (llc mbr mbl : ℚ) : String :=
  csv_identity pidMode time socket desc rmid pid ++
    fillin_csv_row mon_event sel_events_max llc mbr mbl ++ "\n"

/-! ### Concrete fixtures used by the evaluation theorems -/

/-- A capability descriptor that supplies every event with native
scale 1. -/
def cap1 : CapModel := ⟨some ⟨1⟩, some ⟨1⟩, some ⟨1⟩⟩

/-- A tick environment with no stop request, a successful poll, a
zero-length tick and an undisturbed sleep, on a 10-row terminal. -/
def env_ok : TickEnv := ⟨false, true, false, 0, none, none, false, 10⟩

/-- env_ok with the stop flag raised at the loop top. -/
def env_stop : TickEnv := ⟨true, true, false, 0, none, none, false, 10⟩

/-- env_ok with a failing poll. -/
def env_pollfail : TickEnv := ⟨false, false, false, 0, none, none, false, 10⟩

/-- Three core groups monitored on a 3-row terminal, llc displayed. -/
def cfg_tty3 : LoopCfg := ⟨.text, true, some 3, 1000000, true, 1, cap1, 3⟩

/-- Snapshot with llc occupancy 0. -/
def snap_lo : mon_snapshot := ⟨0, [0]⟩

/-- Snapshot with llc occupancy 2 ^ 32. -/
def snap_hi : mon_snapshot := ⟨2 ^ 32, [1]⟩

/-- Embeds the sentinel expansion of monitor_setup (monitor.c:571-578
for core groups, monitor.c:598-603 for pid groups): every group whose
mask still equals the all-events sentinel gets the concrete
backend-supported mask, which is also ORed into the display mask. -/
def setup_expand (all_evts : Nat) : List core_group → Nat → List core_group × Nat
  | [], sm => ([], sm)
  | g :: rest, sm =>
    if g.events = PQOS_MON_EVENT_ALL then
      let p := setup_expand all_evts rest (sm ||| all_evts)
      ({ g with events := all_evts } :: p.1, p.2)
    else
      let p := setup_expand all_evts rest sm
      (g :: p.1, p.2)

/-- Four core groups monitored on a 10-row terminal, llc displayed. -/
def cfg_tty10_4 : LoopCfg := ⟨.text, true, some 10, 1000000, true, 1, cap1, 4⟩

/-- env_ok on a terminal that meanwhile shrank to 3 rows. -/
def env_rows3 : TickEnv := ⟨false, true, false, 0, none, none, false, 3⟩

/-- Two core groups, xml output, not a terminal. -/
def cfg_xml_stdout : LoopCfg := ⟨.xml, false, none, 1000000, true, 1, cap1, 2⟩

end Monitor

namespace Monitor

theorem event_factor_pick (sel : Bool) (mon : Option pqos_monitor) (d : ℚ) (q : ℚ)
    (h : event_factor sel mon d = .ok q) :
    (sel = true → ∃ m, mon = some m ∧ q = (m.scale_factor : ℚ) / d) ∧
    (sel = false → q = 1) := by
  cases sel with
  | false =>
    refine ⟨fun hc => (by cases hc), fun _ => ?_⟩
    simpa [event_factor] using h.symm
  | true =>
    refine ⟨fun _ => ?_, fun hc => (by cases hc)⟩
    cases mon with
    | none => simp [event_factor] at h
    | some m =>
      refine ⟨m, rfl, ?_⟩
      simpa [event_factor] using h.symm

/-- Claim C9: the scale-factor resolver divides the native scale by
1024 for cache occupancy and by 1024 * 1024 for each bandwidth event,
assigns the neutral factor 1 to every event outside the observed set,
fails whenever an observed event has no capability descriptor, and a
failure keeps the loop from running any tick. -/
theorem c9_event_factors (cap : CapModel) (sM : Nat) :
    (hasEvt sM PQOS_MON_EVENT_L3_OCCUP = true → cap.l3 = none →
      get_event_factors cap sM = .error ()) ∧
    (hasEvt sM PQOS_MON_EVENT_RMEM_BW = true → cap.mbr = none →
      get_event_factors cap sM = .error ()) ∧
    (hasEvt sM PQOS_MON_EVENT_LMEM_BW = true → cap.mbl = none →
      get_event_factors cap sM = .error ()) ∧
    (∀ f, get_event_factors cap sM = .ok f →
      (hasEvt sM PQOS_MON_EVENT_L3_OCCUP = true →
        ∃ m, cap.l3 = some m ∧ f.llc_factor = (m.scale_factor : ℚ) / 1024) ∧
      (hasEvt sM PQOS_MON_EVENT_L3_OCCUP = false → f.llc_factor = 1) ∧
      (hasEvt sM PQOS_MON_EVENT_RMEM_BW = true →
        ∃ m, cap.mbr = some m ∧ f.mbr_factor = (m.scale_factor : ℚ) / (1024 * 1024)) ∧
      (hasEvt sM PQOS_MON_EVENT_RMEM_BW = false → f.mbr_factor = 1) ∧
      (hasEvt sM PQOS_MON_EVENT_LMEM_BW = true →
        ∃ m, cap.mbl = some m ∧ f.mbl_factor = (m.scale_factor : ℚ) / (1024 * 1024)) ∧
      (hasEvt sM PQOS_MON_EVENT_LMEM_BW = false → f.mbl_factor = 1)) ∧
    (∀ (cfg : LoopCfg) (envs : List TickEnv), cfg.cap = cap → cfg.sel_events_max = sM →
      get_event_factors cap sM = .error () → monitor_loop cfg envs = []) := by
  refine ⟨?_, ?_, ?_, ?_, ?_⟩
  · intro h1 h2
    simp [get_event_factors, h1, h2, event_factor]
  · intro h1 h2
    unfold get_event_factors
    cases event_factor (hasEvt sM PQOS_MON_EVENT_L3_OCCUP) cap.l3 1024 with
    | error e => rfl
    | ok llcf => simp [h1, h2, event_factor]
  · intro h1 h2
    unfold get_event_factors
    cases event_factor (hasEvt sM PQOS_MON_EVENT_L3_OCCUP) cap.l3 1024 with
    | error e => rfl
    | ok llcf =>
      cases event_factor (hasEvt sM PQOS_MON_EVENT_RMEM_BW) cap.mbr (1024 * 1024) with
      | error e => rfl
      | ok mbrf => simp [h1, h2, event_factor]
  · intro f hf
    unfold get_event_factors at hf
    cases h1 : event_factor (hasEvt sM PQOS_MON_EVENT_L3_OCCUP) cap.l3 1024 with
    | error e => rw [h1] at hf; cases hf
    | ok llcf =>
      rw [h1] at hf
      cases h2 : event_factor (hasEvt sM PQOS_MON_EVENT_RMEM_BW) cap.mbr (1024 * 1024) with
      | error e => rw [h2] at hf; cases hf
      | ok mbrf =>
        rw [h2] at hf
        cases h3 : event_factor (hasEvt sM PQOS_MON_EVENT_LMEM_BW) cap.mbl (1024 * 1024) with
        | error e => rw [h3] at hf; cases hf
        | ok mblf =>
          rw [h3] at hf
          cases hf
          have p1 := event_factor_pick _ _ _ _ h1
          have p2 := event_factor_pick _ _ _ _ h2
          have p3 := event_factor_pick _ _ _ _ h3
          exact ⟨p1.1, p1.2, p2.1, p2.2, p3.1, p3.2⟩
  · intro cfg envs hc hs herr
    unfold monitor_loop
    rw [hc, hs, herr]

/-- Witness for C9 at a concrete input: with the mask selecting all
three events but the capability descriptor missing for remote
bandwidth, the resolver fails, and the loop with that configuration
runs no tick. -/
theorem c9_event_factors_witness :
    get_event_factors ⟨some ⟨3⟩, none, some ⟨5⟩⟩ 7 = .error () ∧
    monitor_loop ⟨.text, false, none, 10, true, 7, ⟨some ⟨3⟩, none, some ⟨5⟩⟩, 2⟩
      [env_ok] = [] := by
  have h := c9_event_factors ⟨some ⟨3⟩, none, some ⟨5⟩⟩ 7
  refine ⟨h.2.1 (by decide) rfl, ?_⟩
  exact h.2.2.2.2 _ [env_ok] rfl rfl (h.2.1 (by decide) rfl)

/-- Claim C2: the top-like sort is claimed to yield rows in
non-increasing order of cache-occupancy value for any input snapshot
set.  The comparator mon_qsort_llc_cmp_desc casts the int64 difference
of the two uint64 llc values to int, truncating to 32 bits: for
occupancies 0 and 2 ^ 32 it returns 0, declaring the two snapshots
equal against its own documented contract (monitor.c:766-769: a
positive result whenever b exceeds a), so the sort leaves the
ascending pair in place.  This evaluates the comparator and the sort
at that failing input. -/
theorem c2_llc_cmp_desc_truncates :
    snap_lo.llc < snap_hi.llc ∧
    mon_qsort_llc_cmp_desc snap_lo snap_hi = 0 ∧
    qsort_model mon_qsort_llc_cmp_desc [snap_lo, snap_hi] = [snap_lo, snap_hi] := by
  decide

/-- Claim C3: every tick is claimed to poll the full registry.  With
three registered groups on a 3-row terminal the first tick polls all
3 handles, but the terminal clamp overwrites the shared mon_number
counter, so the second tick polls only 1 handle.  The second
conjunct shows the true half of the claim: a poll failure ends the
run at once, with no retry and nothing written after it. -/
theorem c3_poll_count_clamped :
    (monitor_loop cfg_tty3 [env_ok, env_ok] =
      [.poll 3, .render 1, .poll 1, .render 1] ∧ (1 : Nat) ≠ 3) ∧
    monitor_loop cfg_tty3 [env_pollfail, env_ok] = [.poll 3, .pollFail] := by
  decide

/-- Claim C4, counterexample: the claim as stated is refuted twice.
First, the terminal row count is read only before the loop: with four
groups on a terminal that showed 10 rows at start but 3 rows at the
second tick, the second tick still renders 4 rows, and 4 plus the
2-line margin exceeds the 3 visible rows, so no per-tick re-query
constrains the drawn block.  Second, the clamp does not affect only
the rendered group count: with three groups on a 3-row terminal the
second tick polls only 1 handle. -/
theorem c4_counterexample :
    (monitor_loop cfg_tty10_4 [env_ok, env_rows3] =
        [.poll 4, .render 4, .poll 4, .render 4] ∧
      env_rows3.rows < 4 + 3 - 1) ∧
    (monitor_loop cfg_tty3 [env_ok, env_ok] =
        [.poll 3, .render 1, .poll 1, .render 1] ∧ (1 : Nat) ≠ 3) := by
  decide

/-- Claim C5, counterexample: the claim as stated says a wake for any
reason other than stop resumes sleeping for the full residual
duration.  With an interval of 150 and a tick that took 50, the
remainder is 100; a first wake (not stop) after 30 resumes for the
residual 70, but a second wake (not stop) after 20 ends the phase
with only 50 of the 100 slept, no break taken, and only the two
nanosleep requests 100 and 70 ever issued: the remainder is
abandoned, not resumed. -/
theorem c5_counterexample :
    tick_sleep 150 50 (some ⟨30, false⟩) (some ⟨20, false⟩) =
      ⟨50, false, [100, 70]⟩ ∧ (50 : Nat) < 100 := by
  decide

/-- Claim C6: the pid bound is claimed to apply to the accumulated
pid count across all clauses.  sel_store_process_id checks only the
clause-local count n against PQOS_MAX_PIDS = 128, so two clauses of
100 distinct pids each are accepted and the registry reaches 200
entries with no configuration error, where the C table
sel_monitor_pid_tab holds only 128 slots. -/
theorem c6_pid_bound_per_clause_only :
    (selfn_monitor_pids
        [(.kLlc, List.range 100), (.kLlc, (List.range 100).map (· + 100))]
        ⟨0, []⟩).map (fun st => st.tab.length) = .ok 200 ∧
    PQOS_MAX_PIDS < 200 := by
  exact ⟨by set_option maxRecDepth 40000 in rfl, by decide⟩

/-- Claim C7: the enclosing root element is claimed to be written
exactly once for every destination stream.  For stdout the opening
root element is never written (the declaration block sits in the
named-file branch of monitor_setup), while the closing root element is
still written once at loop end; for a named file with pre-existing
content the w+ open truncates it, the position check then reads zero
and the declaration plus root-open are written once. -/
theorem c7_xml_root_open_missing_on_stdout :
    ((monitor_run cfg_xml_stdout none [env_ok, env_ok, env_stop]).count .rootOpen = 0 ∧
      (monitor_run cfg_xml_stdout none [env_ok, env_ok, env_stop]).count .rootClose = 1) ∧
    ((monitor_run cfg_xml_stdout (some 57) [env_ok, env_ok, env_stop]).count .rootOpen = 1 ∧
      (monitor_run cfg_xml_stdout (some 57) [env_ok, env_ok, env_stop]).count .rootClose = 1) := by
  decide

end Monitor

namespace Monitor

/-! ### Display-mask accumulation (claim C10) -/

/-- The display-mask contribution of one clause head: only the three
explicitly named events contribute. -/
def namedBits (k : EvtKind) : Nat :=
  match k with
  | .kLlc => PQOS_MON_EVENT_L3_OCCUP
  | .kMbr => PQOS_MON_EVENT_RMEM_BW
  | .kMbl => PQOS_MON_EVENT_LMEM_BW
  | .kAll => 0
  | .kEmptyHead => 0
  | .kBad => 0

/-- The OR of the named-event bits of a clause-head list. -/
def namedMask (ks : List EvtKind) : Nat :=
  ks.foldl (fun a k => a ||| namedBits k) 0

theorem exceptBind_ok {α β : Type} (a : α) (k : α → Except Unit β) :
    (Except.ok a >>= k) = k a := rfl

theorem exceptBind_error {α β : Type} (e : Unit) (k : α → Except Unit β) :
    ((Except.error e : Except Unit α) >>= k) = .error e := rfl

theorem foldl_lor_init (f : EvtKind → Nat) (ks : List EvtKind) :
    ∀ init, ks.foldl (fun a k => a ||| f k) init =
      init ||| ks.foldl (fun a k => a ||| f k) 0 := by
  induction ks with
  | nil => intro init; simp [Nat.or_zero]
  | cons k ks ih =>
    intro init
    simp only [List.foldl_cons]
    rw [ih (init ||| f k), ih (0 ||| f k), Nat.zero_or, Nat.lor_assoc]

theorem parse_event_mask (k : EvtKind) (sm : Nat) (r : Nat × Nat)
    (h : parse_event k sm = .ok r) : r.2 = sm ||| namedBits k := by
  cases k <;> cases h <;> simp [namedBits, Nat.or_zero]

theorem parse_monitor_event_mask (k : EvtKind) (cands : List core_group)
    (st r : CoreState) (h : parse_monitor_event k cands st = .ok r) :
    r.sel_events_max = st.sel_events_max ||| namedBits k := by
  unfold parse_monitor_event at h
  cases hp : parse_event k st.sel_events_max with
  | error e => rw [hp] at h; cases h
  | ok pr =>
    obtain ⟨evt, sm⟩ := pr
    rw [hp] at h
    dsimp only at h
    cases hq : List.foldlM (cgrp_register evt) st.tab cands with
    | error e => rw [hq] at h; cases h
    | ok tab' =>
      rw [hq] at h
      cases h
      exact parse_event_mask k st.sel_events_max (evt, sm) hp

theorem selfn_cores_mask (clauses : List (EvtKind × List core_group)) :
    ∀ st r : CoreState,
      List.foldlM (fun s c => parse_monitor_event c.1 c.2 s) st clauses = .ok r →
      r.sel_events_max = st.sel_events_max ||| namedMask (clauses.map Prod.fst) := by
  induction clauses with
  | nil =>
    intro st r h
    cases h
    simp [namedMask, Nat.or_zero]
  | cons c cs ih =>
    intro st r h
    rw [List.foldlM_cons] at h
    cases hp : parse_monitor_event c.1 c.2 st with
    | error e => rw [hp, exceptBind_error] at h; cases h
    | ok s1 =>
      rw [hp, exceptBind_ok] at h
      have h1 := parse_monitor_event_mask c.1 c.2 st s1 hp
      have h2 := ih s1 r h
      rw [h2, h1, List.map_cons]
      show _ = st.sel_events_max ||| namedMask (c.1 :: cs.map Prod.fst)
      unfold namedMask
      rw [List.foldl_cons,
        foldl_lor_init namedBits (cs.map Prod.fst) (0 ||| namedBits c.1),
        Nat.zero_or, Nat.lor_assoc]

theorem sel_store_mask (k : EvtKind) (procs : List Nat) (st r : PidState)
    (h : sel_store_process_id k procs st = .ok r) :
    r.sel_events_max = st.sel_events_max ||| namedBits k := by
  unfold sel_store_process_id at h
  cases hp : parse_event k st.sel_events_max with
  | error e => rw [hp] at h; cases h
  | ok pr =>
    obtain ⟨evt, sm⟩ := pr
    rw [hp] at h
    dsimp only at h
    split at h
    · cases h
    · split at h
      · cases h
      · cases h
        exact parse_event_mask k st.sel_events_max (evt, sm) hp

theorem selfn_pids_mask (clauses : List (EvtKind × List Nat)) :
    ∀ st r : PidState,
      List.foldlM (fun s c => sel_store_process_id c.1 c.2 s) st clauses = .ok r →
      r.sel_events_max = st.sel_events_max ||| namedMask (clauses.map Prod.fst) := by
  induction clauses with
  | nil =>
    intro st r h
    cases h
    simp [namedMask, Nat.or_zero]
  | cons c cs ih =>
    intro st r h
    rw [List.foldlM_cons] at h
    cases hp : sel_store_process_id c.1 c.2 st with
    | error e => rw [hp, exceptBind_error] at h; cases h
    | ok s1 =>
      rw [hp, exceptBind_ok] at h
      have h1 := sel_store_mask c.1 c.2 st s1 hp
      have h2 := ih s1 r h
      rw [h2, h1, List.map_cons]
      show _ = st.sel_events_max ||| namedMask (c.1 :: cs.map Prod.fst)
      unfold namedMask
      rw [List.foldl_cons,
        foldl_lor_init namedBits (cs.map Prod.fst) (0 ||| namedBits c.1),
        Nat.zero_or, Nat.lor_assoc]

theorem setup_expand_mask (all_evts : Nat) :
    ∀ (tab : List core_group) (sm : Nat),
      (setup_expand all_evts tab sm).2 =
        sm ||| (if tab.any (fun g => g.events == PQOS_MON_EVENT_ALL) then all_evts
                else 0) := by
  intro tab
  induction tab with
  | nil => intro sm; simp [setup_expand, Nat.or_zero]
  | cons g rest ih =>
    intro sm
    simp only [setup_expand]
    split
    next hg =>
      dsimp only
      rw [ih]
      have hb : (g.events == PQOS_MON_EVENT_ALL) = true := beq_iff_eq.mpr hg
      simp only [List.any_cons, hb, Bool.true_or, if_true]
      cases hr : rest.any (fun g => g.events == PQOS_MON_EVENT_ALL) with
      | true => simp only [hr, if_true, Nat.lor_assoc, Nat.or_self]
      | false => simp only [hr, if_false, Bool.false_eq_true, Nat.or_zero]
    next hg =>
      dsimp only
      rw [ih]
      have hb : (g.events == PQOS_MON_EVENT_ALL) = false := by simp [hg]
      simp only [List.any_cons, hb, Bool.false_or]

/-- Claim C10: each public setter call resets the display mask to
zero before parsing, parsing ORs only explicitly named events into it
(the all and empty heads contribute nothing), so the resulting display
mask is exactly the OR of the events named in that call, independent
of any previous state; sentinel-selected events enter the display
mask only through the setup-time expansion, which ORs in the
backend-supported mask exactly when some group still carries the
sentinel. -/
theorem c10_display_mask (coreCl : List (EvtKind × List core_group))
    (pidCl : List (EvtKind × List Nat)) (st : CoreState) (stp : PidState)
    (all_evts : Nat) :
    (∀ r, selfn_monitor_cores coreCl st = .ok r →
      r.sel_events_max = namedMask (coreCl.map Prod.fst)) ∧
    (∀ r, selfn_monitor_pids pidCl stp = .ok r →
      r.sel_events_max = namedMask (pidCl.map Prod.fst)) ∧
    (∀ (tab : List core_group) (sm : Nat),
      (setup_expand all_evts tab sm).2 =
        sm ||| (if tab.any (fun g => g.events == PQOS_MON_EVENT_ALL) then all_evts
                else 0)) := by
  refine ⟨?_, ?_, setup_expand_mask all_evts⟩
  · intro r h
    have := selfn_cores_mask coreCl ⟨0, st.tab⟩ r h
    simpa [Nat.zero_or] using this
  · intro r h
    have := selfn_pids_mask pidCl ⟨0, stp.tab⟩ r h
    simpa [Nat.zero_or] using this

/-- Witness for C10 at concrete inputs: a core call naming only mbr
over a state whose mask was 9 yields mask 4; a pid call with clauses
naming llc and then the all sentinel yields mask 1; expanding a table
holding one sentinel group ORs the backend mask 6 into display mask
1. -/
theorem c10_display_mask_witness :
    (selfn_monitor_cores [(.kMbr, [])] ⟨9, []⟩ = .ok ⟨4, []⟩ ∧
      (4 : Nat) = namedMask [.kMbr]) ∧
    (selfn_monitor_pids [(.kLlc, [7]), (.kAll, [7])] ⟨9, []⟩ =
        .ok ⟨1, [⟨7, 1 ||| PQOS_MON_EVENT_ALL⟩]⟩ ∧
      (1 : Nat) = namedMask [.kLlc, .kAll]) ∧
    (setup_expand 6 [⟨"3", [3], PQOS_MON_EVENT_ALL⟩] 1).2 = 1 ||| 6 := by
  have h := c10_display_mask [(.kMbr, [])] [(.kLlc, [7]), (.kAll, [7])]
    ⟨9, []⟩ ⟨9, []⟩ 6
  refine ⟨⟨by rfl, (h.1 ⟨4, []⟩ (by rfl)).symm⟩,
    ⟨by rfl, (h.2.1 ⟨1, [⟨7, 1 ||| PQOS_MON_EVENT_ALL⟩]⟩ (by rfl)).symm⟩, ?_⟩
  rw [h.2.2 [⟨"3", [3], PQOS_MON_EVENT_ALL⟩] 1]
  rfl

end Monitor

namespace Monitor

/-- Claim C5, amended behavior of the interval sleep
(monitor.c:1494-1511): an undisturbed sleep covers the whole
remainder; a wake with the stop flag set breaks immediately without
completing the sleep and issues no further request; a wake for any
other reason resumes sleeping once, requesting exactly the residual
duration, and completes when undisturbed — but if the resumed sleep is
itself interrupted, the remainder is abandoned with no third request
and no break; a sleep phase that breaks ends the loop at once, with
nothing polled or rendered after it. -/
theorem c5_sleep_resume_once (need : Nat) (i j : SleepWake)
    (hi : i.elapsed < need) :
    (∀ w2, sleep_phase need none w2 = ⟨need, false, [need]⟩) ∧
    (∀ w2, i.stopFlag = true →
      sleep_phase need (some i) w2 = ⟨i.elapsed, true, [need]⟩ ∧ i.elapsed < need) ∧
    (i.stopFlag = false →
      (∀ w2, (sleep_phase need (some i) w2).requests = [need, need - i.elapsed]) ∧
      (sleep_phase need (some i) none).slept = need ∧
      ((sleep_phase need (some i) (some j)).slept = i.elapsed + j.elapsed ∧
        (sleep_phase need (some i) (some j)).broke = false)) ∧
    (∀ (cfg : LoopCfg) (L n : Nat) (e : TickEnv) (rest : List TickEnv),
      e.stopAtTop = false → e.pollOk = true → e.stopAfterRender = false →
      (tick_sleep cfg.interval e.usec_diff e.w1 e.w2).broke = true →
      monitor_ticks cfg L n (e :: rest) =
        .poll n :: .render (clamp_groups L n) :: loop_closing cfg) := by
  refine ⟨fun w2 => rfl, ?_, ?_, ?_⟩
  · intro w2 hs
    refine ⟨?_, hi⟩
    simp [sleep_phase, hs]
  · intro hs
    refine ⟨?_, ?_, ?_, ?_⟩
    · intro w2
      cases w2 <;> simp [sleep_phase, hs]
    · simp [sleep_phase, hs]
      omega
    · simp [sleep_phase, hs]
    · simp [sleep_phase, hs]
  · intro cfg L n e rest h1 h2 h3 h4
    simp [monitor_ticks, h1, h2, h3, h4]

/-- Witness for C5 at a concrete input: remainder 100, a first
non-stop wake after 30 and a second after 20. -/
theorem c5_sleep_resume_once_witness :
    (sleep_phase 100 (some ⟨30, false⟩) none).slept = 100 ∧
    (sleep_phase 100 (some ⟨30, false⟩) (some ⟨20, false⟩)).requests = [100, 70] ∧
    (sleep_phase 100 (some ⟨30, true⟩) (some ⟨20, false⟩)) = ⟨30, true, [100]⟩ := by
  have h1 := c5_sleep_resume_once 100 ⟨30, false⟩ ⟨20, false⟩ (by decide)
  have h2 := c5_sleep_resume_once 100 ⟨30, true⟩ ⟨20, false⟩ (by decide)
  exact ⟨(h1.2.2.1 rfl).2.1, (h1.2.2.1 rfl).1 (some ⟨20, false⟩),
    (h2.2.1 (some ⟨20, false⟩) rfl).1⟩

end Monitor

namespace Monitor

/-- A tick environment that raises no stop condition: stop flag clear
at both checkpoints, poll succeeds, the sleep is not broken by the
stop signal, and the wall-clock timeout has not fired. -/
def benign (cfg : LoopCfg) (e : TickEnv) : Prop :=
  e.stopAtTop = false ∧ e.pollOk = true ∧ e.stopAfterRender = false ∧
    (tick_sleep cfg.interval e.usec_diff e.w1 e.w2).broke = false ∧
    e.timeoutHit = false

/-- The event trace of t undisturbed ticks starting from group counter
n: each tick polls the current counter, clamps it, renders the clamped
counter and continues with it. -/
def run_chain (max_lines : Nat) : Nat → Nat → List Ev
  | _, 0 => []
  | n, t + 1 =>
    .poll n :: .render (clamp_groups max_lines n) ::
      run_chain max_lines (clamp_groups max_lines n) t

theorem monitor_ticks_benign (cfg : LoopCfg) (L : Nat) :
    ∀ (envs : List TickEnv) (n : Nat), (∀ e ∈ envs, benign cfg e) →
      monitor_ticks cfg L n envs = run_chain L n envs.length := by
  intro envs
  induction envs with
  | nil => intro n _; rfl
  | cons e rest ih =>
    intro n hb
    obtain ⟨h1, h2, h3, h4, h5⟩ := hb e (List.mem_cons_self e rest)
    have hrest : ∀ x ∈ rest, benign cfg x := fun x hx => hb x (List.mem_cons_of_mem e hx)
    simp only [monitor_ticks, h1, h2, h3, h4, h5, Bool.not_true, Bool.and_false,
      if_false, Bool.false_eq_true, ite_false, List.length_cons]
    rw [ih (clamp_groups L n) hrest]
    rfl

/-- Claim C4, amended: when the output stream is a terminal and the
ioctl succeeds, the terminal row count is queried once before the loop
and floored at TERM_MIN_NUM_LINES = 3; on each tick, if the group
count plus the 2-line header margin exceeds that initial row count,
the shared group counter is clamped to rows - 2, which is at least 1
and makes the drawn block plus margin exactly fill the initial row
count; the clamp is idempotent across ticks, a fitting group count is
left unchanged, and the clamped counter also feeds every later poll
(the run trace is run_chain, whose later polls carry the clamped
value). -/
theorem c4_clamp_once_queried (cfg : LoopCfg) (envs : List TickEnv) (r : Nat)
    (f : EventFactors) (h1 : cfg.istty = true) (h2 : cfg.ioctlRows = some r)
    (hf : get_event_factors cfg.cap cfg.sel_events_max = .ok f)
    (hb : ∀ e ∈ envs, benign cfg e) :
    monitor_loop cfg envs = run_chain (max 3 r) cfg.mon_number envs.length ∧
    3 ≤ max 3 r ∧
    (∀ n, clamp_groups (max 3 r) (clamp_groups (max 3 r) n) =
      clamp_groups (max 3 r) n) ∧
    (∀ n, max 3 r < n + 2 →
      clamp_groups (max 3 r) n = max 3 r - 2 ∧
      1 ≤ clamp_groups (max 3 r) n ∧
      clamp_groups (max 3 r) n + 2 = max 3 r) ∧
    (∀ n, n + 2 ≤ max 3 r → clamp_groups (max 3 r) n = n) := by
  have hL : init_max_lines cfg.istty cfg.ioctlRows = max 3 r := by
    rw [h1, h2]
    simp only [init_max_lines, if_true]
    split <;> omega
  refine ⟨?_, ?_, ?_, ?_, ?_⟩
  · unfold monitor_loop
    rw [hf, hL]
    exact monitor_ticks_benign cfg (max 3 r) envs cfg.mon_number hb
  · omega
  · intro n
    unfold clamp_groups
    split <;> (try split) <;> omega
  · intro n hn
    unfold clamp_groups
    refine ⟨?_, ?_, ?_⟩ <;> (split <;> omega)
  · intro n hn
    unfold clamp_groups
    split <;> omega

/-- Witness for C4 at a concrete input: three groups on a 3-row
terminal, one benign tick. -/
theorem c4_clamp_once_queried_witness :
    monitor_loop cfg_tty3 [env_ok] = run_chain (max 3 3) 3 1 ∧
    clamp_groups (max 3 3) 3 = max 3 3 - 2 := by
  have h := c4_clamp_once_queried cfg_tty3 [env_ok] 3
    ⟨(1 : ℚ)/1024, 1, 1⟩ rfl rfl (by rfl)
    (by
      intro e he
      rw [List.mem_singleton] at he
      subst he
      exact ⟨rfl, rfl, rfl, by decide, rfl⟩)
  exact ⟨h.1, (h.2.2.2.1 3 (by decide)).1⟩

end Monitor

namespace Monitor

/-! ### String facts for the row formatters (claim C8) -/

theorem str_length_zero_eq (s : String) (h : s.length = 0) : s = "" := by
  cases s with
  | mk data =>
    cases data with
    | nil => rfl
    | cons c cs => simp [String.length] at h

theorem append_ne_left (a b : String) (h : a ≠ "") : a ++ b ≠ "" := by
  intro he
  have hl := congrArg String.length he
  rw [String.length_append, show ("" : String).length = 0 from rfl] at hl
  exact h (str_length_zero_eq a (by omega))

theorem append_ne_right (a b : String) (h : b ≠ "") : a ++ b ≠ "" := by
  intro he
  have hl := congrArg String.length he
  rw [String.length_append, show ("" : String).length = 0 from rfl] at hl
  exact h (str_length_zero_eq b (by omega))

theorem strPadLeft_length (n : Nat) (s : String) :
    (strPadLeft n s).length = (n - s.length) + s.length := by
  rw [strPadLeft, String.length_append]
  congr 1
  exact List.length_replicate _ _

theorem fmt_f1_ne_empty (v : ℚ) : fmt_f1 v ≠ "" := by
  rw [fmt_f1]
  exact append_ne_left _ _ (append_ne_right _ _ (by decide))

theorem fmt_11_1f_ne_empty (v : ℚ) : fmt_11_1f v ≠ "" := by
  intro he
  have hl := congrArg String.length he
  rw [fmt_11_1f, strPadLeft_length, show ("" : String).length = 0 from rfl] at hl
  exact fmt_f1_ne_empty v (str_length_zero_eq _ (by omega))

theorem hasEvt_zero (e : Nat) : hasEvt 0 e = false := by
  simp [hasEvt, Nat.zero_and]

theorem text_identity_ne_empty (pm : Bool) (sock : Nat) (desc : String)
    (rmid pid : Nat) : text_identity pm sock desc rmid pid ≠ "" := by
  cases pm <;>
    (simp only [text_identity, Bool.not_false, Bool.not_true, if_true, if_false,
      ite_true, ite_false]
     repeat apply append_ne_left
     decide)

theorem xml_identity_ne_empty (pm : Bool) (time : String) (sock : Nat)
    (desc : String) (rmid pid : Nat) :
    xml_identity pm time sock desc rmid pid ≠ "" := by
  cases pm <;>
    (simp only [xml_identity, Bool.not_false, Bool.not_true, if_true, if_false,
      ite_true, ite_false]
     repeat apply append_ne_left
     decide)

theorem csv_identity_ne_empty (pm : Bool) (time : String) (sock : Nat)
    (desc : String) (rmid pid : Nat) :
    csv_identity pm time sock desc rmid pid ≠ "" := by
  cases pm with
  | false =>
    simp only [csv_identity, Bool.not_false, if_true, ite_true]
    apply append_ne_left
    exact append_ne_right _ _ (by decide)
  | true =>
    simp only [csv_identity, Bool.not_true, if_false, ite_false]
    exact append_ne_right _ _ (by decide)

theorem fillin_xml_full_ne_empty (v : ℚ) (nm : String) :
    "\t<" ++ nm ++ ">" ++ fmt_f1 v ++ "</" ++ nm ++ ">\n" ≠ "" := by
  repeat apply append_ne_left
  decide

theorem fillin_xml_blank_ne_empty (nm : String) :
    "\t<" ++ nm ++ "></" ++ nm ++ ">\n" ≠ "" := by
  repeat apply append_ne_left
  decide

/-- Claim C8: a column that is in the global display set but not in
the group mask renders as the fixed blank form of each encoding
(eleven spaces, an empty named element, a bare comma); a group with
mask zero renders per encoding exactly the concatenation of the blank
forms of the globally present columns, and each print function still
emits its never-empty identity fields in front of the data cells; and
a cell is non-blankly-or-blankly rendered (nonempty) exactly when the
column is globally present, provided the group mask is contained in
the display mask, so rows of groups with different masks expose the
same column structure. -/
theorem c8_blank_alignment :
    (∀ v : ℚ,
      fillin_text_column v false true = blank_column ∧
      (∀ nm, fillin_xml_column v false true nm =
        "\t<" ++ nm ++ "></" ++ nm ++ ">\n") ∧
      fillin_csv_column v false true = ",") ∧
    (∀ (sM : Nat) (llc mbr mbl : ℚ),
      fillin_text_row 0 sM llc mbr mbl =
        (if hasEvt sM PQOS_MON_EVENT_L3_OCCUP then blank_column else "") ++
        (if hasEvt sM PQOS_MON_EVENT_LMEM_BW then blank_column else "") ++
        (if hasEvt sM PQOS_MON_EVENT_RMEM_BW then blank_column else "") ∧
      fillin_xml_row 0 sM llc mbr mbl =
        (if hasEvt sM PQOS_MON_EVENT_L3_OCCUP then
          "\t<l3_occupancy_kB></l3_occupancy_kB>\n" else "") ++
        (if hasEvt sM PQOS_MON_EVENT_LMEM_BW then
          "\t<mbm_local_MB></mbm_local_MB>\n" else "") ++
        (if hasEvt sM PQOS_MON_EVENT_RMEM_BW then
          "\t<mbm_remote_MB></mbm_remote_MB>\n" else "") ∧
      fillin_csv_row 0 sM llc mbr mbl =
        (if hasEvt sM PQOS_MON_EVENT_L3_OCCUP then "," else "") ++
        (if hasEvt sM PQOS_MON_EVENT_LMEM_BW then "," else "") ++
        (if hasEvt sM PQOS_MON_EVENT_RMEM_BW then "," else "")) ∧
    (∀ (pm : Bool) (sock : Nat) (desc : String) (rmid pid : Nat) (time : String)
        (mE sM : Nat) (llc mbr mbl : ℚ),
      print_text_row pm sock desc rmid pid mE sM llc mbr mbl =
        text_identity pm sock desc rmid pid ++
          fillin_text_row mE sM llc mbr mbl ∧
      text_identity pm sock desc rmid pid ≠ "" ∧
      print_xml_row pm time sock desc rmid pid mE sM llc mbr mbl =
        xml_identity pm time sock desc rmid pid ++
          fillin_xml_row mE sM llc mbr mbl ++ "</record>\n" ∧
      xml_identity pm time sock desc rmid pid ≠ "" ∧
      print_csv_row pm time sock desc rmid pid mE sM llc mbr mbl =
        csv_identity pm time sock desc rmid pid ++
          fillin_csv_row mE sM llc mbr mbl ++ "\n" ∧
      csv_identity pm time sock desc rmid pid ≠ "") ∧
    (∀ (v : ℚ) (mon pres : Bool) (nm : String), (mon = true → pres = true) →
      ((fillin_text_column v mon pres = "" ↔ pres = false) ∧
        (fillin_xml_column v mon pres nm = "" ↔ pres = false) ∧
        (fillin_csv_column v mon pres = "" ↔ pres = false))) := by
  refine ⟨?_, ?_, ?_, ?_⟩
  · intro v
    exact ⟨rfl, fun nm => rfl, rfl⟩
  · intro sM llc mbr mbl
    refine ⟨?_, ?_, ?_⟩ <;>
      simp only [fillin_text_row, fillin_xml_row, fillin_csv_row, hasEvt_zero,
        fillin_text_column, fillin_xml_column, fillin_csv_column,
        Bool.false_eq_true, if_false, ite_false] <;>
      split_ifs <;> rfl
  · intro pm sock desc rmid pid time mE sM llc mbr mbl
    exact ⟨rfl, text_identity_ne_empty pm sock desc rmid pid, rfl,
      xml_identity_ne_empty pm time sock desc rmid pid, rfl,
      csv_identity_ne_empty pm time sock desc rmid pid⟩
  · intro v mon pres nm hmp
    cases mon with
    | true =>
      have hp := hmp rfl
      subst hp
      refine ⟨?_, ?_, ?_⟩ <;>
        simp only [fillin_text_column, fillin_xml_column, fillin_csv_column,
          if_true, ite_true]
      · simp [fmt_11_1f_ne_empty v]
      · simp [fillin_xml_full_ne_empty v nm]
      · simp [append_ne_left "," (fmt_f1 v) (by decide)]
    | false =>
      cases pres with
      | true =>
        refine ⟨?_, ?_, ?_⟩ <;>
          simp only [fillin_text_column, fillin_xml_column, fillin_csv_column,
            Bool.false_eq_true, if_false, ite_false, if_true, ite_true]
        · simp [show blank_column ≠ "" from by decide]
        · simp [fillin_xml_blank_ne_empty nm]
        · simp [show ("," : String) ≠ "" from by decide]
      | false =>
        refine ⟨?_, ?_, ?_⟩ <;>
          simp [fillin_text_column, fillin_xml_column, fillin_csv_column]

/-- Witness for C8 at concrete inputs: a column with value 37/10 that
is globally present but not monitored by the group renders as the
blank form in all three encodings, and the emptiness of a cell follows
the global presence bit. -/
theorem c8_blank_alignment_witness :
    fillin_text_column (37/10 : ℚ) false true = blank_column ∧
    fillin_xml_column (37/10 : ℚ) false true "l3_occupancy_kB" =
      "\t<l3_occupancy_kB></l3_occupancy_kB>\n" ∧
    fillin_csv_column (37/10 : ℚ) false true = "," ∧
    (fillin_text_column (37/10 : ℚ) false true = "" ↔ (true = false)) := by
  have h := c8_blank_alignment
  refine ⟨(h.1 (37/10)).1, ?_, (h.1 (37/10)).2.2, ?_⟩
  · exact ((h.1 (37/10)).2.1 "l3_occupancy_kB").trans (by decide)
  · exact (h.2.2.2 (37/10) false true "x" (by decide)).1

end Monitor

namespace Monitor

/-! ### The three-way registry comparison (claim C1) -/

/-- Two core lists holding the same set of cores. -/
def sameSet (a b : List Nat) : Prop := ∀ x, x ∈ a ↔ x ∈ b

/-- Two core lists sharing no core. -/
def setDisjoint (a b : List Nat) : Prop := ∀ x ∈ a, x ∉ b

/-- Decidable same-set test. -/
def sameSetB (a b : List Nat) : Bool :=
  (a.all fun x => decide (x ∈ b)) && (b.all fun x => decide (x ∈ a))

theorem sameSetB_iff (a b : List Nat) : sameSetB a b = true ↔ sameSet a b := by
  simp only [sameSetB, Bool.and_eq_true, List.all_eq_true, decide_eq_true_eq, sameSet]
  constructor
  · rintro ⟨h1, h2⟩ x
    exact ⟨fun hx => h1 x hx, fun hx => h2 x hx⟩
  · intro h
    exact ⟨fun x hx => (h x).mp hx, fun x hx => (h x).mpr hx⟩

theorem map_id_on {α : Type} (f : α → α) :
    ∀ l : List α, (∀ x ∈ l, f x = x) → l.map f = l := by
  intro l
  induction l with
  | nil => intro _; rfl
  | cons x xs ih =>
    intro h
    rw [List.map_cons, h x (List.mem_cons_self _ _),
      ih fun y hy => h y (List.mem_cons_of_mem _ hy)]

theorem found_eq_zero (a b : List Nat) : cgrp_found a b = 0 ↔ setDisjoint a b := by
  rw [cgrp_found, List.sum_eq_zero_iff]
  constructor
  · intro h x hx
    exact List.count_eq_zero.mp (h (b.count x) (List.mem_map_of_mem _ hx))
  · intro h n hn
    obtain ⟨x, hx, rfl⟩ := List.mem_map.mp hn
    exact List.count_eq_zero.mpr (h x hx)

theorem found_eq_filter (a b : List Nat) (hb : b.Nodup) :
    cgrp_found a b = (a.filter fun x => decide (x ∈ b)).length := by
  induction a with
  | nil => rfl
  | cons x xs ih =>
    simp only [cgrp_found, List.map_cons, List.sum_cons, List.filter_cons]
    by_cases hx : x ∈ b
    · rw [List.count_eq_one_of_mem hb hx, if_pos (by simpa using hx)]
      rw [show (xs.map fun x => b.count x).sum = cgrp_found xs b from rfl, ih]
      simp only [List.length_cons]
      omega
    · rw [List.count_eq_zero.mpr hx, if_neg (by simpa using hx)]
      rw [show (xs.map fun x => b.count x).sum = cgrp_found xs b from rfl, ih]
      omega

theorem cmp_of_disjoint (A B : core_group) (h : setDisjoint A.cores B.cores) :
    cmp_cgrps A B = 0 := by
  unfold cmp_cgrps
  rw [if_pos ((found_eq_zero _ _).mpr h)]

theorem cmp_of_sameSet (A B : core_group) (ha : A.cores.Nodup) (hb : B.cores.Nodup)
    (hne : B.cores ≠ []) (h : sameSet A.cores B.cores) : cmp_cgrps A B = 1 := by
  have hfilter : (A.cores.filter fun x => decide (x ∈ B.cores)) = A.cores := by
    rw [List.filter_eq_self]
    intro x hx
    simpa using (h x).mp hx
  have hfound : cgrp_found A.cores B.cores = A.cores.length := by
    rw [found_eq_filter _ _ hb, hfilter]
  have hts : A.cores.toFinset = B.cores.toFinset := by
    ext x
    simp [List.mem_toFinset, h x]
  have hlen : A.cores.length = B.cores.length := by
    calc A.cores.length = A.cores.toFinset.card := (List.toFinset_card_of_nodup ha).symm
      _ = B.cores.toFinset.card := by rw [hts]
      _ = B.cores.length := List.toFinset_card_of_nodup hb
  have hpos : cgrp_found A.cores B.cores ≠ 0 := by
    rw [hfound, hlen]
    exact fun h0 => hne (List.length_eq_zero.mp h0)
  unfold cmp_cgrps
  rw [if_neg hpos, if_pos ⟨hlen, by rw [hfound, hlen]⟩]

theorem cmp_of_overlap (A B : core_group) (ha : A.cores.Nodup) (hb : B.cores.Nodup)
    (hov : ∃ x, x ∈ A.cores ∧ x ∈ B.cores) (hns : ¬ sameSet A.cores B.cores) :
    cmp_cgrps A B = -1 := by
  have hpos : cgrp_found A.cores B.cores ≠ 0 := by
    rw [Ne, found_eq_zero]
    intro hd
    obtain ⟨x, hxa, hxb⟩ := hov
    exact hd x hxa hxb
  have hcond : ¬(A.cores.length = B.cores.length ∧
      B.cores.length = cgrp_found A.cores B.cores) := by
    rintro ⟨hlen, hcnt⟩
    have hfi : (A.cores.filter fun x => decide (x ∈ B.cores)).length =
        A.cores.length := by
      rw [← found_eq_filter _ _ hb, ← hcnt, hlen]
    have hfeq := List.Sublist.eq_of_length (List.filter_sublist A.cores) hfi
    have hsub : ∀ x ∈ A.cores, x ∈ B.cores := by
      intro x hx
      have hx' : x ∈ A.cores.filter fun x => decide (x ∈ B.cores) := by
        rw [hfeq]
        exact hx
      simpa using (List.mem_filter.mp hx').2
    have hAB : A.cores.toFinset ⊆ B.cores.toFinset := by
      intro x hx
      exact List.mem_toFinset.mpr (hsub x (List.mem_toFinset.mp hx))
    have hcard : B.cores.toFinset.card ≤ A.cores.toFinset.card := by
      rw [List.toFinset_card_of_nodup ha, List.toFinset_card_of_nodup hb, hlen]
    have heq := Finset.eq_of_subset_of_card_le hAB hcard
    apply hns
    intro x
    refine ⟨hsub x, fun hx => ?_⟩
    exact List.mem_toFinset.mp (heq ▸ List.mem_toFinset.mpr hx)
  unfold cmp_cgrps
  rw [if_neg hpos, if_neg hcond]

theorem cgrp_scan_disjoint (cand : core_group) (evt : Nat) :
    ∀ tab : List core_group, (∀ g ∈ tab, setDisjoint g.cores cand.cores) →
      cgrp_scan cand evt tab = .ok none := by
  intro tab
  induction tab with
  | nil => intro _; rfl
  | cons g rest ih =>
    intro h
    have hg := cmp_of_disjoint g cand (h g (List.mem_cons_self _ _))
    have hrest := ih fun g' hg' => h g' (List.mem_cons_of_mem _ hg')
    simp [cgrp_scan, hg, hrest]

theorem cgrp_scan_match (cand : core_group) (evt : Nat) :
    ∀ tab : List core_group,
      tab.Pairwise (fun g h => setDisjoint g.cores h.cores) →
      (∀ g ∈ tab, g.cores.Nodup) →
      cand.cores.Nodup → cand.cores ≠ [] →
      (∃ g ∈ tab, sameSet g.cores cand.cores) →
      cgrp_scan cand evt tab =
        .ok (some (tab.map fun g =>
          if sameSetB g.cores cand.cores then { g with events := g.events ||| evt }
          else g)) := by
  intro tab
  induction tab with
  | nil => intro _ _ _ _ hex; simp at hex
  | cons g rest ih =>
    intro hpd hnd hcd hce hex
    obtain ⟨x0, hx0⟩ := List.exists_mem_of_ne_nil cand.cores hce
    by_cases hg : sameSet g.cores cand.cores
    · have hc1 := cmp_of_sameSet g cand (hnd g (List.mem_cons_self _ _)) hcd hce hg
      have hgB : sameSetB g.cores cand.cores = true := (sameSetB_iff _ _).mpr hg
      have hrest_dis : ∀ h' ∈ rest, setDisjoint h'.cores cand.cores := by
        intro h' hh' x hx hxc
        have hxg : x ∈ g.cores := (hg x).mpr hxc
        exact (List.pairwise_cons.mp hpd).1 h' hh' x hxg hx
      have hmap : (rest.map fun g =>
          if sameSetB g.cores cand.cores then { g with events := g.events ||| evt }
          else g) = rest := by
        apply map_id_on
        intro h' hh'
        have hns : sameSetB h'.cores cand.cores = false := by
          cases hb : sameSetB h'.cores cand.cores
          · rfl
          · exact absurd ((((sameSetB_iff _ _).mp hb) x0).mpr hx0)
              (hrest_dis h' hh' x0 · hx0)
        rw [hns]
        simp
      simp [cgrp_scan, hc1, hgB, hmap]
    · obtain ⟨g0, hg0mem, hg0⟩ := hex
      have hg0rest : g0 ∈ rest := by
        rcases List.mem_cons.mp hg0mem with h | h
        · exact absurd (h ▸ hg0) hg
        · exact h
      have hgdis : setDisjoint g.cores cand.cores := by
        intro x hx hxc
        exact (List.pairwise_cons.mp hpd).1 g0 hg0rest x hx ((hg0 x).mpr hxc)
      have hc0 := cmp_of_disjoint g cand hgdis
      have hgB : sameSetB g.cores cand.cores = false := by
        cases hb : sameSetB g.cores cand.cores
        · rfl
        · exact absurd ((sameSetB_iff _ _).mp hb) hg
      have hrec := ih (List.pairwise_cons.mp hpd).2
        (fun g' h' => hnd g' (List.mem_cons_of_mem _ h')) hcd hce ⟨g0, hg0rest, hg0⟩
      simp [cgrp_scan, hc0, hrec, hgB]

theorem cgrp_scan_overlap (cand : core_group) (evt : Nat) :
    ∀ tab : List core_group,
      tab.Pairwise (fun g h => setDisjoint g.cores h.cores) →
      (∀ g ∈ tab, g.cores.Nodup) →
      cand.cores.Nodup →
      (∃ g ∈ tab, (∃ x, x ∈ g.cores ∧ x ∈ cand.cores) ∧
        ¬ sameSet g.cores cand.cores) →
      cgrp_scan cand evt tab = .error () := by
  intro tab
  induction tab with
  | nil => intro _ _ _ hex; simp at hex
  | cons g rest ih =>
    intro hpd hnd hcd hex
    by_cases hover : (∃ x, x ∈ g.cores ∧ x ∈ cand.cores) ∧
        ¬ sameSet g.cores cand.cores
    · have hcm := cmp_of_overlap g cand (hnd g (List.mem_cons_self _ _)) hcd
        hover.1 hover.2
      simp [cgrp_scan, hcm]
    · obtain ⟨g0, hg0mem, hov0, hns0⟩ := hex
      have hg0rest : g0 ∈ rest := by
        rcases List.mem_cons.mp hg0mem with h | h
        · exact absurd ⟨h ▸ hov0, h ▸ hns0⟩ hover
        · exact h
      have hgdis : setDisjoint g.cores cand.cores := by
        by_cases hgs : sameSet g.cores cand.cores
        · exfalso
          obtain ⟨x, hxg0, hxc⟩ := hov0
          exact (List.pairwise_cons.mp hpd).1 g0 hg0rest x ((hgs x).mpr hxc) hxg0
        · intro x hx hxc
          exact hover ⟨⟨x, hx, hxc⟩, hgs⟩
      have hc0 := cmp_of_disjoint g cand hgdis
      have hrec := ih (List.pairwise_cons.mp hpd).2
        (fun g' h' => hnd g' (List.mem_cons_of_mem _ h')) hcd ⟨g0, hg0rest, hov0, hns0⟩
      simp [cgrp_scan, hc0, hrec]

/-- Claim C1: one candidate group entering a registry of pairwise
disjoint, duplicate-free groups is handled three ways.  A candidate
whose core set equals the set of some registered group is merged: the
registry keeps its length and exactly the matching entry gets the
clause event ORed into its mask.  A candidate disjoint from every
registered group is appended as a new entry carrying the clause
event.  A candidate sharing some but not all cores with a registered
group makes registration fail fatally. -/
theorem c1_registry_three_way (tab : List core_group) (cand : core_group)
    (evt : Nat)
    (hpd : tab.Pairwise fun g h => setDisjoint g.cores h.cores)
    (hnd : ∀ g ∈ tab, g.cores.Nodup)
    (hcd : cand.cores.Nodup) (hce : cand.cores ≠ []) :
    ((∃ g ∈ tab, sameSet g.cores cand.cores) →
      cgrp_register evt tab cand =
        .ok (tab.map fun g =>
          if sameSetB g.cores cand.cores then { g with events := g.events ||| evt }
          else g) ∧
      (tab.map fun g =>
        if sameSetB g.cores cand.cores then { g with events := g.events ||| evt }
        else g).length = tab.length) ∧
    ((∀ g ∈ tab, setDisjoint g.cores cand.cores) →
      cgrp_register evt tab cand = .ok (tab ++ [{ cand with events := evt }])) ∧
    ((∃ g ∈ tab, (∃ x, x ∈ g.cores ∧ x ∈ cand.cores) ∧
        ¬ sameSet g.cores cand.cores) →
      cgrp_register evt tab cand = .error ()) := by
  refine ⟨?_, ?_, ?_⟩
  · intro hex
    refine ⟨?_, List.length_map _ _⟩
    unfold cgrp_register
    rw [cgrp_scan_match cand evt tab hpd hnd hcd hce hex]
  · intro hdis
    unfold cgrp_register
    rw [cgrp_scan_disjoint cand evt tab hdis]
  · intro hex
    unfold cgrp_register
    rw [cgrp_scan_overlap cand evt tab hpd hnd hcd hex]

/-- Registry fixture: the singleton group 0 with llc selected and the
pair group 1,2 with mbl selected. -/
def tab01 : List core_group := [⟨"0", [0], 1⟩, ⟨"1,2", [1, 2], 2⟩]

/-- Witness for C1 at concrete inputs: the candidate 2,1 equals the
set of the registered pair group, so registering it with mbr merges
the masks; the candidate 3 is disjoint from both groups and is
appended; the candidate 0,1 overlaps both groups partially and is
rejected. -/
theorem c1_registry_three_way_witness :
    cgrp_register 4 tab01 ⟨"2,1", [2, 1], 0⟩ =
      .ok [⟨"0", [0], 1⟩, ⟨"1,2", [1, 2], 2 ||| 4⟩] ∧
    cgrp_register 4 tab01 ⟨"3", [3], 0⟩ =
      .ok [⟨"0", [0], 1⟩, ⟨"1,2", [1, 2], 2⟩, ⟨"3", [3], 4⟩] ∧
    cgrp_register 4 tab01 ⟨"0,1", [0, 1], 0⟩ = .error () := by
  have hpd : tab01.Pairwise fun g h => setDisjoint g.cores h.cores := by
    constructor
    · intro g hg
      rw [List.mem_singleton] at hg
      subst hg
      intro x hx
      fin_cases hx <;> decide
    · constructor
      · intro g hg
        simp at hg
      · constructor
  have hnd : ∀ g ∈ tab01, g.cores.Nodup := by decide
  have h1 := c1_registry_three_way tab01 ⟨"2,1", [2, 1], 0⟩ 4 hpd hnd
    (by decide) (by decide)
  have h2 := c1_registry_three_way tab01 ⟨"3", [3], 0⟩ 4 hpd hnd
    (by decide) (by decide)
  have h3 := c1_registry_three_way tab01 ⟨"0,1", [0, 1], 0⟩ 4 hpd hnd
    (by decide) (by decide)
  refine ⟨?_, ?_, ?_⟩
  · have hex : ∃ g ∈ tab01, sameSet g.cores (core_group.mk "2,1" [2, 1] 0).cores := by
      refine ⟨⟨"1,2", [1, 2], 2⟩, by decide, ?_⟩
      intro x
      constructor <;> (intro hx
                       fin_cases hx <;> simp)
    exact ((h1.1 hex).1).trans (by rfl)
  · apply h2.2.1
    intro g hg x hx
    fin_cases hg <;> (fin_cases hx <;> decide)
  · apply h3.2.2
    refine ⟨⟨"0", [0], 1⟩, by decide, ⟨0, by decide, by decide⟩, ?_⟩
    intro hs
    have := (hs 1).mpr (by decide)
    simp at this

end Monitor
